import Mathlib

/-!
Verification of the scan-result ingestion, persistence and scoring pipeline
of the fastapi-semgrep-webhook repository.

The Python source is shallowly embedded:
* `src/monitoring/monitoring_module.py` — `ScanResult`, `FindingDetail`,
  `SemgrepResultParser.parse_semgrep_output`, `SecurityScoreCalculator`,
  `MonitoringDatabase` (modelled as a functional state with sqlite's
  transactional all-or-nothing semantics), `MonitoringReport`.
* `src/main.py` — `normalize_semgrep_results`.

Python `dict.get(k, d)` on optional JSON fields is embedded as `Option.getD`;
Python string comparison (by Unicode code point, which for sqlite's BINARY
collation on UTF-8 text yields the same order) is embedded by the executable
comparator `charListLt` below.  Machine integers are embedded as `Nat`/`Int`
(Python ints are unbounded, so no modular reduction is needed); the sqlite
REAL column `scan_duration` never takes part in arithmetic, so it is embedded
as `Rat`.
-/

/-! ### Byte-wise string order (Python `<` on str, sqlite BINARY collation) -/

/-- Strict lexicographic order on lists of characters, by code point.  This is
exactly Python's `<` on strings and sqlite's BINARY text order (UTF-8 byte
order coincides with code-point order). -/
def charListLt : List Char → List Char → Bool
  | [], [] => false
  | [], _ :: _ => true
  | _ :: _, [] => false
  | a :: as, b :: bs =>
    if a.toNat < b.toNat then true
    else if b.toNat < a.toNat then false
    else charListLt as bs

/-- Strict string order used by the embedding (Python / sqlite order). -/
def strLt (a b : String) : Bool := charListLt a.toList b.toList

/-- Non-strict string order. -/
def strLe (a b : String) : Bool := !(strLt b a)

theorem charListLt_trans : ∀ a b c, charListLt a b = true → charListLt b c = true →
    charListLt a c = true
  | [], [], _ :: _, _, _ => rfl
  | [], _ :: _, _ :: _, _, _ => rfl
  | a :: as, b :: bs, c :: cs, hab, hbc => by
    simp only [charListLt] at hab hbc ⊢
    split_ifs at hab hbc ⊢ <;> try omega
    all_goals first
      | rfl
      | exact charListLt_trans as bs cs hab hbc

theorem charListLt_connex : ∀ a b, charListLt a b = false → charListLt b a = false →
    a = b
  | [], [], _, _ => rfl
  | [], _ :: _, h, _ => by simp [charListLt] at h
  | _ :: _, [], _, h => by simp [charListLt] at h
  | a :: as, b :: bs, hab, hba => by
    simp only [charListLt] at hab hba
    split_ifs at hab hba <;> try omega
    have hc : a = b := Char.ext (UInt32.ext (by show a.toNat = b.toNat; omega))
    have : as = bs := charListLt_connex as bs hab hba
    simp [hc, this]

theorem strLt_trans {a b c : String} (hab : strLt a b = true) (hbc : strLt b c = true) :
    strLt a c = true :=
  charListLt_trans _ _ _ hab hbc

theorem strLt_connex {a b : String} (hab : strLt a b = false) (hba : strLt b a = false) :
    a = b := by
  have h := charListLt_connex _ _ hab hba
  exact String.toList_inj.mp h

/-! ### Data model (`monitoring_module.py`, dataclasses `ScanResult` and
`FindingDetail`)

The counts of a `ScanResult` are embedded as `Nat`: every value the program
builds or the spec quantifies over is a non-negative count.  Score arithmetic
below is carried out in `Int`, exactly as Python's `100 - penalty` is. -/

/-- `@dataclass ScanResult` of `monitoring_module.py`. -/
structure ScanResult where
  scan_id : String
  repository : String
  commit_sha : String
  timestamp : String
  total_findings : Nat
  error_count : Nat
  warning_count : Nat
  info_count : Nat
  scan_duration : Rat
  rules_applied : Nat
deriving DecidableEq

/-- `@dataclass FindingDetail` of `monitoring_module.py`. -/
structure FindingDetail where
  rule_id : String
  severity : String
  category : String
  file_path : String
  line_number : Int
  message : String
deriving DecidableEq

/-! ### Security Score Engine (`SecurityScoreCalculator`) -/

/-- The `WEIGHTS` dictionary of `SecurityScoreCalculator`. -/
def WEIGHTS_ERROR : Nat := 10
def WEIGHTS_WARNING : Nat := 5
def WEIGHTS_INFO : Nat := 1

/-- The `penalty` local of `SecurityScoreCalculator.calculate_score`. -/
def penaltyOf (s : ScanResult) : Int :=
  (s.error_count : Int) * WEIGHTS_ERROR + (s.warning_count : Int) * WEIGHTS_WARNING +
    (s.info_count : Int) * WEIGHTS_INFO

/-- Python's `round(x, 2)` applied to an `int` returns the `int` unchanged;
`calculate_score` only ever rounds the integer `max(0, 100 - penalty)`. -/
def pyRound2 (n : Int) : Int := n

/-- `SecurityScoreCalculator.calculate_score`: `round(max(0, 100 - penalty), 2)`. -/
def calculate_score (s : ScanResult) : Int :=
  pyRound2 (max 0 (100 - penaltyOf s))

/-- `SecurityScoreCalculator.get_grade`. -/
def get_grade (score : Int) : String :=
  if score ≥ 90 then "A"
  else if score ≥ 80 then "B"
  else if score ≥ 70 then "C"
  else if score ≥ 60 then "D"
  else "F"

/-- Claim C1: for every ScanSummary with non-negative integer counts the engine
returns `max 0 (100 - (10*error + 5*warning + 1*info))` (rounding to two
decimals is the identity here, the value being an integer), the grade bands are
`≥90 → A`, `≥80 → B`, `≥70 → C`, `≥60 → D`, else `F`, and all-zero counts give
score 100 and grade `A`. -/
theorem score_engine_formula_and_bands (s : ScanResult) :
    calculate_score s =
      max 0 (100 - ((s.error_count : Int) * 10 + (s.warning_count : Int) * 5 +
        (s.info_count : Int))) ∧
    (90 ≤ calculate_score s → get_grade (calculate_score s) = "A") ∧
    (80 ≤ calculate_score s → calculate_score s < 90 →
      get_grade (calculate_score s) = "B") ∧
    (70 ≤ calculate_score s → calculate_score s < 80 →
      get_grade (calculate_score s) = "C") ∧
    (60 ≤ calculate_score s → calculate_score s < 70 →
      get_grade (calculate_score s) = "D") ∧
    (calculate_score s < 60 → get_grade (calculate_score s) = "F") ∧
    (s.error_count = 0 → s.warning_count = 0 → s.info_count = 0 →
      calculate_score s = 100 ∧ get_grade (calculate_score s) = "A") := by
  refine ⟨?_, ?_, ?_, ?_, ?_, ?_, ?_⟩
  · simp [calculate_score, pyRound2, penaltyOf, WEIGHTS_ERROR, WEIGHTS_WARNING, WEIGHTS_INFO]
  · intro h; simp only [get_grade, ge_iff_le]; rw [if_pos (by omega)]
  · intro h1 h2; simp only [get_grade, ge_iff_le]
    rw [if_neg (by omega), if_pos (by omega)]
  · intro h1 h2; simp only [get_grade, ge_iff_le]
    rw [if_neg (by omega), if_neg (by omega), if_pos (by omega)]
  · intro h1 h2; simp only [get_grade, ge_iff_le]
    rw [if_neg (by omega), if_neg (by omega), if_neg (by omega), if_pos (by omega)]
  · intro h; simp only [get_grade, ge_iff_le]
    rw [if_neg (by omega), if_neg (by omega), if_neg (by omega), if_neg (by omega)]
  · intro he hw hi
    constructor
    · simp [calculate_score, pyRound2, penaltyOf, he, hw, hi]
    · simp [calculate_score, pyRound2, penaltyOf, he, hw, hi, get_grade]

/-- Witness for C1 at the all-zero summary. -/
theorem score_engine_formula_and_bands_witness :
    calculate_score ⟨"", "", "", "", 0, 0, 0, 0, 0, 0⟩ = 100 ∧
    get_grade (calculate_score ⟨"", "", "", "", 0, 0, 0, 0, 0, 0⟩) = "A" :=
  (score_engine_formula_and_bands ⟨"", "", "", "", 0, 0, 0, 0, 0, 0⟩).2.2.2.2.2.2
    rfl rfl rfl

/-- Claim C2, counterexample: both summaries sit on the zero floor of the
score, so the score is not strictly smaller for the larger error count.
`A` has 10 errors (penalty 100, score 0); `B` agrees with `A` on every other
field and has 11 errors (penalty 110, score 0). -/
theorem score_not_strictly_monotone :
    (⟨"s", "r", "c", "t", 10, 10, 0, 0, 0, 0⟩ : ScanResult).error_count <
      (⟨"s", "r", "c", "t", 10, 11, 0, 0, 0, 0⟩ : ScanResult).error_count ∧
    calculate_score ⟨"s", "r", "c", "t", 10, 10, 0, 0, 0, 0⟩ = 0 ∧
    calculate_score ⟨"s", "r", "c", "t", 10, 11, 0, 0, 0, 0⟩ = 0 ∧
    ¬ calculate_score ⟨"s", "r", "c", "t", 10, 11, 0, 0, 0, 0⟩ <
        calculate_score ⟨"s", "r", "c", "t", 10, 10, 0, 0, 0, 0⟩ := by
  refine ⟨by decide, by decide, by decide, by decide⟩

/-- Claim C2 (amended): for summaries that agree on every field except
`error_count`, a strictly larger `error_count` gives a score that is at most
as large, and strictly smaller whenever the smaller summary's penalty is
below 100 (i.e. its score has not yet hit the zero floor). -/
theorem score_monotone_in_errors (A : ScanResult) (b : Nat)
    (h : A.error_count < b) :
    calculate_score { A with error_count := b } ≤ calculate_score A ∧
    (penaltyOf A < 100 →
      calculate_score { A with error_count := b } < calculate_score A) := by
  have hp : penaltyOf A + 10 ≤ penaltyOf { A with error_count := b } := by
    simp only [penaltyOf, WEIGHTS_ERROR, WEIGHTS_WARNING, WEIGHTS_INFO]
    push_cast
    omega
  constructor
  · simp only [calculate_score, pyRound2]
    rcases le_total (100 - penaltyOf A) 0 with h0 | h0 <;>
      rcases le_total (100 - penaltyOf { A with error_count := b }) 0 with h1 | h1 <;>
      simp [max_def] <;> omega
  · intro hlt
    simp only [calculate_score, pyRound2]
    rcases le_total (100 - penaltyOf { A with error_count := b }) 0 with h1 | h1 <;>
      simp [max_def] <;> omega

/-- Witness for the amended C2 at zero counts versus one error. -/
theorem score_monotone_in_errors_witness :
    calculate_score { (⟨"", "", "", "", 0, 0, 0, 0, 0, 0⟩ : ScanResult) with
        error_count := 1 } ≤
      calculate_score (⟨"", "", "", "", 0, 0, 0, 0, 0, 0⟩ : ScanResult) ∧
    calculate_score { (⟨"", "", "", "", 0, 0, 0, 0, 0, 0⟩ : ScanResult) with
        error_count := 1 } <
      calculate_score (⟨"", "", "", "", 0, 0, 0, 0, 0, 0⟩ : ScanResult) :=
  ⟨(score_monotone_in_errors ⟨"", "", "", "", 0, 0, 0, 0, 0, 0⟩ 1 (by decide)).1,
   (score_monotone_in_errors ⟨"", "", "", "", 0, 0, 0, 0, 0, 0⟩ 1 (by decide)).2
     (by decide)⟩

/-! ### Raw scanner output (`result.json` as the code accesses it)

Only the fields the two normalizers read are represented.  A JSON key that is
absent (the case the code defends against with `dict.get`) is `none`. -/

/-- The `extra.metadata` block of one raw semgrep result. -/
structure RawMetadata where
  category : Option String := none
  owasp : Option String := none
  cwe : Option String := none
deriving DecidableEq

/-- The `extra` block of one raw semgrep result. -/
structure RawExtra where
  severity : Option String := none
  message : Option String := none
  metadata : Option RawMetadata := none
deriving DecidableEq

/-- A `start` / `end` position block of one raw semgrep result. -/
structure RawPos where
  line : Option Int := none
deriving DecidableEq

/-- One record of the top-level `results` array of semgrep's JSON output.
`severity` is the top-level fallback field read by
`main.normalize_semgrep_results`; `end_pos` embeds the JSON key `end`. -/
structure RawResult where
  check_id : Option String := none
  path : Option String := none
  severity : Option String := none
  start : Option RawPos := none
  end_pos : Option RawPos := none
  extra : Option RawExtra := none
deriving DecidableEq

/-- The top-level JSON object, restricted to the keys the code reads:
`results`, `paths._comment` and `version`. -/
structure SemgrepData where
  results : Option (List RawResult) := none
  paths_comment : Option String := none
  version : Option String := none
deriving DecidableEq

/-! ### Finding Normalizer of the monitoring module
(`SemgrepResultParser.parse_semgrep_output`)

The Python function reads the JSON from a file path and stamps the result with
the current time; file input and clock are ambient effects, so the embedding
takes the parsed JSON plus the two clock-derived strings as arguments. -/

/-- `r.get('extra', {}).get('severity', 'INFO')`, the severity used both for
the tally and for the stored finding. -/
def parsedSeverity (r : RawResult) : String :=
  ((r.extra.getD {}).severity).getD "INFO"

/-- The `FindingDetail(...)` constructed for one raw record in the loop of
`parse_semgrep_output`. -/
def findingOfRaw (r : RawResult) : FindingDetail :=
  { rule_id := r.check_id.getD "unknown"
    severity := parsedSeverity r
    category := (((r.extra.getD {}).metadata).getD {}).category.getD "unknown"
    file_path := r.path.getD ""
    line_number := ((r.start.getD {}).line).getD 0
    message := (r.extra.getD {}).message.getD "" }

/-- `SemgrepResultParser.parse_semgrep_output`.  `nowId` stands for
`datetime.now().strftime('%Y%m%d_%H%M%S')` and `nowIso` for
`datetime.now().isoformat()`.  Note `data.get('results', [])`: a missing
`results` key is replaced by the empty list, it does not raise. -/
def parse_semgrep_output (nowId nowIso : String) (data : SemgrepData) :
    ScanResult × List FindingDetail :=
  let results := data.results.getD []
  let scan_result : ScanResult :=
    { scan_id := "scan_" ++ nowId
      repository := data.paths_comment.getD "unknown"
      commit_sha := data.version.getD "unknown"
      timestamp := nowIso
      total_findings := results.length
      error_count := results.countP (fun r => parsedSeverity r == "ERROR")
      warning_count := results.countP (fun r => parsedSeverity r == "WARNING")
      info_count := results.countP (fun r => parsedSeverity r == "INFO")
      scan_duration := 0
      rules_applied := ((results.map (fun r => r.check_id.getD "")).dedup).length }
  (scan_result, results.map findingOfRaw)

/-- Counting helper: a list splits into the parts matched by three mutually
exclusive predicates and the remainder. -/
theorem countP_three_split {α : Type} (p₁ p₂ p₃ : α → Bool)
    (hd : ∀ a, ¬(p₁ a = true ∧ p₂ a = true) ∧ ¬(p₁ a = true ∧ p₃ a = true) ∧
      ¬(p₂ a = true ∧ p₃ a = true)) :
    ∀ l : List α, l.length =
      l.countP p₁ + l.countP p₂ + l.countP p₃ +
        l.countP (fun a => !(p₁ a) && !(p₂ a) && !(p₃ a))
  | [] => rfl
  | a :: l => by
    have ih := countP_three_split p₁ p₂ p₃ hd l
    rcases hd a with ⟨h12, h13, h23⟩
    simp only [List.countP_cons, List.length_cons]
    by_cases h1 : p₁ a = true <;> by_cases h2 : p₂ a = true <;>
      by_cases h3 : p₃ a = true <;>
      simp_all <;> omega

/-- Claim C3, counterexample: one raw record whose `extra.severity` is
`"CRITICAL"` is counted in `total_findings` but in none of the three severity
tallies, so `total_findings = 1` while the tallies sum to `0`. -/
theorem summary_counts_invariant_fails :
    (parse_semgrep_output "i" "t"
        { results := some [{ extra := some { severity := some "CRITICAL" } }] }).1.total_findings
      = 1 ∧
    (parse_semgrep_output "i" "t"
        { results := some [{ extra := some { severity := some "CRITICAL" } }] }).1.error_count +
    (parse_semgrep_output "i" "t"
        { results := some [{ extra := some { severity := some "CRITICAL" } }] }).1.warning_count +
    (parse_semgrep_output "i" "t"
        { results := some [{ extra := some { severity := some "CRITICAL" } }] }).1.info_count
      = 0 := by
  exact ⟨by decide, by decide⟩

/-- Claim C3 (amended): `total_findings` equals the sum of the three severity
tallies plus the number of records whose extracted severity lies outside
{ERROR, WARNING, INFO}; in particular the invariant
`total_findings = error_count + warning_count + info_count` holds exactly for
inputs all of whose extracted severities lie in that closed set. -/
theorem summary_counts_decomposition (nowId nowIso : String) (data : SemgrepData) :
    (parse_semgrep_output nowId nowIso data).1.total_findings =
      (parse_semgrep_output nowId nowIso data).1.error_count +
      (parse_semgrep_output nowId nowIso data).1.warning_count +
      (parse_semgrep_output nowId nowIso data).1.info_count +
      (data.results.getD []).countP (fun r =>
        !(parsedSeverity r == "ERROR") && !(parsedSeverity r == "WARNING") &&
          !(parsedSeverity r == "INFO")) ∧
    ((∀ r ∈ data.results.getD [],
        parsedSeverity r = "ERROR" ∨ parsedSeverity r = "WARNING" ∨
          parsedSeverity r = "INFO") →
      (parse_semgrep_output nowId nowIso data).1.total_findings =
        (parse_semgrep_output nowId nowIso data).1.error_count +
        (parse_semgrep_output nowId nowIso data).1.warning_count +
        (parse_semgrep_output nowId nowIso data).1.info_count) := by
  have hsplit := countP_three_split
    (fun r => parsedSeverity r == "ERROR")
    (fun r => parsedSeverity r == "WARNING")
    (fun r => parsedSeverity r == "INFO")
    (by intro a; refine ⟨?_, ?_, ?_⟩ <;> simp_all) (data.results.getD [])
  constructor
  · simpa [parse_semgrep_output] using hsplit
  · intro hall
    have hz : (data.results.getD []).countP (fun r =>
        !(parsedSeverity r == "ERROR") && !(parsedSeverity r == "WARNING") &&
          !(parsedSeverity r == "INFO")) = 0 := by
      rw [List.countP_eq_zero]
      intro a ha
      rcases hall a ha with h | h | h <;> simp [h]
    simp only [parse_semgrep_output] at hsplit ⊢
    omega

/-- Witness for the amended C3: two ERROR records and one record without a
severity (defaulting to INFO). -/
theorem summary_counts_decomposition_witness :
    (parse_semgrep_output "i" "t"
        { results := some [{ extra := some { severity := some "ERROR" } },
                           { extra := some { severity := some "ERROR" } },
                           { extra := none }] }).1.total_findings =
      (parse_semgrep_output "i" "t"
        { results := some [{ extra := some { severity := some "ERROR" } },
                           { extra := some { severity := some "ERROR" } },
                           { extra := none }] }).1.error_count +
      (parse_semgrep_output "i" "t"
        { results := some [{ extra := some { severity := some "ERROR" } },
                           { extra := some { severity := some "ERROR" } },
                           { extra := none }] }).1.warning_count +
      (parse_semgrep_output "i" "t"
        { results := some [{ extra := some { severity := some "ERROR" } },
                           { extra := some { severity := some "ERROR" } },
                           { extra := none }] }).1.info_count :=
  (summary_counts_decomposition "i" "t"
    { results := some [{ extra := some { severity := some "ERROR" } },
                       { extra := some { severity := some "ERROR" } },
                       { extra := none }] }).2 (by decide)

/-- Claim C4, counterexample: a raw record carrying the out-of-set severity
`"CRITICAL"` yields a normalized finding whose severity is `"CRITICAL"` —
the value is kept verbatim, not coerced to `INFO`, before it is counted or
stored. -/
theorem finding_severity_outside_closed_set :
    ((parse_semgrep_output "i" "t"
        { results := some [{ extra := some { severity := some "CRITICAL" } }] }).2.map
      (fun f => f.severity)) = ["CRITICAL"] ∧
    ¬("CRITICAL" = "ERROR" ∨ "CRITICAL" = "WARNING" ∨ "CRITICAL" = "INFO") := by
  exact ⟨by decide, by decide⟩

/-- Claim C4 (amended): the severity of a normalized finding is read from the
`extra.severity` field; a missing value defaults to `"INFO"`, while a present
value — whether or not it lies in {ERROR, WARNING, INFO} — is kept verbatim.
The parsed finding list applies exactly this extraction to every record. -/
theorem finding_severity_extraction (nowId nowIso : String) (data : SemgrepData)
    (r : RawResult) :
    (parse_semgrep_output nowId nowIso data).2.map (fun f => f.severity) =
      (data.results.getD []).map parsedSeverity ∧
    ((r.extra.getD {}).severity = none → (findingOfRaw r).severity = "INFO") ∧
    (∀ s, (r.extra.getD {}).severity = some s → (findingOfRaw r).severity = s) := by
  refine ⟨?_, ?_, ?_⟩
  · simp [parse_semgrep_output, findingOfRaw]
  · intro h; simp [findingOfRaw, parsedSeverity, h]
  · intro s h; simp [findingOfRaw, parsedSeverity, h]

/-- Witness for the amended C4: a record without severity yields `"INFO"`,
one with `"CRITICAL"` keeps `"CRITICAL"`. -/
theorem finding_severity_extraction_witness :
    (findingOfRaw { extra := none }).severity = "INFO" ∧
    (findingOfRaw { extra := some { severity := some "CRITICAL" } }).severity =
      "CRITICAL" :=
  ⟨(finding_severity_extraction "" "" {} { extra := none }).2.1 rfl,
   (finding_severity_extraction "" "" {}
      { extra := some { severity := some "CRITICAL" } }).2.2 "CRITICAL" rfl⟩

/-- Claim C5, counterexample: a raw output whose top-level `results` collection
is missing is not rejected — `data.get('results', [])` substitutes the empty
list, so parsing succeeds and returns the same zero summary as an explicitly
empty result collection.  (The embedded parser is total because the code path
cannot raise on a JSON object; there is no ParseError case.) -/
theorem missing_results_is_not_an_error :
    parse_semgrep_output "X" "T" { results := none } =
      parse_semgrep_output "X" "T" { results := some [] } ∧
    (parse_semgrep_output "X" "T" { results := none }).1.total_findings = 0 ∧
    (parse_semgrep_output "X" "T" { results := none }).2 = [] := by
  exact ⟨by decide, by decide, by decide⟩

/-- Claim C5 (amended): a missing top-level result collection is treated
exactly like an empty one: parsing succeeds and yields a summary with
`total_findings = 0`, all severity tallies `0`, and an empty finding list;
a raw output with zero results is likewise valid and yields zero findings. -/
theorem missing_results_treated_as_empty (nowId nowIso : String)
    (pc v : Option String) :
    parse_semgrep_output nowId nowIso
        { results := none, paths_comment := pc, version := v } =
      parse_semgrep_output nowId nowIso
        { results := some [], paths_comment := pc, version := v } ∧
    (parse_semgrep_output nowId nowIso
        { results := some [], paths_comment := pc, version := v }).1.total_findings = 0 ∧
    (parse_semgrep_output nowId nowIso
        { results := some [], paths_comment := pc, version := v }).1.error_count = 0 ∧
    (parse_semgrep_output nowId nowIso
        { results := some [], paths_comment := pc, version := v }).1.warning_count = 0 ∧
    (parse_semgrep_output nowId nowIso
        { results := some [], paths_comment := pc, version := v }).1.info_count = 0 ∧
    (parse_semgrep_output nowId nowIso
        { results := some [], paths_comment := pc, version := v }).2 = [] := by
  exact ⟨rfl, rfl, rfl, rfl, rfl, rfl⟩

/-! ### Finding Normalizer of the webhook service
(`normalize_semgrep_results` in `main.py`) -/

/-- One entry of the `normalized` list built by `normalize_semgrep_results`:
the dict with keys `check_id`, `path`, `start_line`, `end_line`, `message`,
`severity`, `category`, `owasp`, `cwe`. -/
structure NItem where
  check_id : Option String
  path : Option String
  start_line : Option Int
  end_line : Option Int
  message : Option String
  severity : String
  category : Option String
  owasp : Option String
  cwe : Option String
deriving DecidableEq

/-- Python `a or b` where `a` is an optional string: `a` when present and
non-empty (truthy), otherwise `b`. -/
def pyOrStr : Option String → String → String
  | some s, b => if s = "" then b else s
  | none, b => b

/-- The dict built for one raw record inside `normalize_semgrep_results`:
`extra = r.get("extra", {})`, `meta = extra.get("metadata", {})`,
`start = r.get("start", {}) or {}`, `end = r.get("end", {}) or {}`, and
`severity = extra.get("severity") or r.get("severity", "INFO")`. -/
def toNItem (r : RawResult) : NItem :=
  { check_id := r.check_id
    path := r.path
    start_line := (r.start.getD {}).line
    end_line := (r.end_pos.getD {}).line
    message := (r.extra.getD {}).message
    severity := pyOrStr (r.extra.getD {}).severity (r.severity.getD "INFO")
    category := ((r.extra.getD {}).metadata.getD {}).category
    owasp := ((r.extra.getD {}).metadata.getD {}).owasp
    cwe := ((r.extra.getD {}).metadata.getD {}).cwe }

/-- `severity_order.get(severity, 99)` with
`severity_order = {"ERROR": 0, "WARNING": 1, "INFO": 2}`. -/
def severityRank (s : String) : Nat :=
  if s = "ERROR" then 0 else if s = "WARNING" then 1 else if s = "INFO" then 2 else 99

/-- The three-part sort key of `normalized.sort`: severity rank, then
`f["path"] or ""`, then `f["start_line"] or 0` (the only falsy `int` is `0`,
so `x or 0` agrees with `Option.getD 0`). -/
def sortKey (n : NItem) : Nat × String × Int :=
  (severityRank n.severity, n.path.getD "", n.start_line.getD 0)

/-- Lexicographic comparison of two sort keys, as Python compares key
tuples. -/
def keyLe (x y : Nat × String × Int) : Bool :=
  if x.1 < y.1 then true
  else if y.1 < x.1 then false
  else if strLt x.2.1 y.2.1 then true
  else if strLt y.2.1 x.2.1 then false
  else decide (x.2.2 ≤ y.2.2)

/-- The total preorder realized by Python's stable `list.sort` with the key
function of `normalize_semgrep_results`. -/
def itemLe (a b : NItem) : Bool := keyLe (sortKey a) (sortKey b)

theorem charListLt_irrefl : ∀ l, charListLt l l = false
  | [] => rfl
  | a :: l => by
    simp only [charListLt]
    rw [if_neg (by omega), if_neg (by omega)]
    exact charListLt_irrefl l

theorem strLt_irrefl (s : String) : strLt s s = false := charListLt_irrefl _

theorem keyLe_eq_true_iff (x y : Nat × String × Int) :
    keyLe x y = true ↔
      x.1 < y.1 ∨ (x.1 = y.1 ∧ (strLt x.2.1 y.2.1 = true ∨
        (x.2.1 = y.2.1 ∧ x.2.2 ≤ y.2.2))) := by
  unfold keyLe
  split_ifs with h1 h2 h3 h4
  · simp [h1]
  · simp only [Bool.false_eq_true, false_iff]
    push_neg
    exact ⟨by omega, fun _ => by omega⟩
  · have hx : x.1 = y.1 := by omega
    simp [hx, h3]
  · have hx : x.1 = y.1 := by omega
    simp only [Bool.false_eq_true, false_iff]
    push_neg
    refine ⟨by omega, fun _ => ⟨by simp_all [Bool.not_eq_true], fun he => ?_⟩⟩
    rw [he] at h4
    rw [strLt_irrefl] at h4
    exact absurd h4 (by simp)
  · have hx : x.1 = y.1 := by omega
    have hs : x.2.1 = y.2.1 :=
      strLt_connex (eq_false_of_ne_true h3) (eq_false_of_ne_true h4)
    simp [hx, hs, h3, strLt_irrefl]

theorem itemLe_trans (a b c : NItem) (hab : itemLe a b = true)
    (hbc : itemLe b c = true) : itemLe a c = true := by
  rw [itemLe, keyLe_eq_true_iff] at hab hbc ⊢
  rcases hab with h | ⟨h1, hab⟩
  · rcases hbc with h' | ⟨h1', _⟩
    · exact Or.inl (by omega)
    · exact Or.inl (by omega)
  · rcases hbc with h' | ⟨h1', hbc⟩
    · exact Or.inl (by omega)
    · refine Or.inr ⟨by omega, ?_⟩
      rcases hab with hs | ⟨hs, hi⟩
      · rcases hbc with hs' | ⟨hs', _⟩
        · exact Or.inl (strLt_trans hs hs')
        · exact Or.inl (hs' ▸ hs)
      · rcases hbc with hs' | ⟨hs', hi'⟩
        · exact Or.inl (hs ▸ hs')
        · exact Or.inr ⟨hs.trans hs', le_trans hi hi'⟩

theorem itemLe_total (a b : NItem) : (itemLe a b || itemLe b a) = true := by
  rw [Bool.or_eq_true, itemLe, itemLe, keyLe_eq_true_iff, keyLe_eq_true_iff]
  rcases Nat.lt_trichotomy (sortKey a).1 (sortKey b).1 with h | h | h
  · exact Or.inl (Or.inl h)
  · by_cases hb : strLt (sortKey a).2.1 (sortKey b).2.1 = true
    · exact Or.inl (Or.inr ⟨h, Or.inl hb⟩)
    · by_cases hb' : strLt (sortKey b).2.1 (sortKey a).2.1 = true
      · exact Or.inr (Or.inr ⟨h.symm, Or.inl hb'⟩)
      · have hs := strLt_connex (eq_false_of_ne_true hb) (eq_false_of_ne_true hb')
        rcases le_total (sortKey a).2.2 (sortKey b).2.2 with hi | hi
        · exact Or.inl (Or.inr ⟨h, Or.inr ⟨hs, hi⟩⟩)
        · exact Or.inr (Or.inr ⟨h.symm, Or.inr ⟨hs.symm, hi⟩⟩)
  · exact Or.inr (Or.inl h)

theorem itemLe_rank_le (a b : NItem) (h : itemLe a b = true) :
    severityRank a.severity ≤ severityRank b.severity := by
  rw [itemLe, keyLe_eq_true_iff] at h
  rcases h with h | ⟨h, _⟩
  · exact Nat.le_of_lt h
  · exact Nat.le_of_eq h

/-- One step of building the `defaultdict` key sequence: a new key is appended
on its first occurrence, later occurrences leave the key order unchanged
(Python dicts preserve insertion order). -/
def dictInsertKey {α : Type} [DecidableEq α] (ks : List α) (k : α) : List α :=
  if k ∈ ks then ks else ks ++ [k]

/-- The keys of the `by_file` defaultdict, in first-occurrence order. -/
def firstKeys {α : Type} [DecidableEq α] (l : List α) : List α :=
  l.foldl dictInsertKey []

/-- The output dict of `normalize_semgrep_results`: keys `results`, `by_file`,
`total`, `count_error`, `count_warning`, `count_info`. -/
structure NormOut where
  results : List NItem
  by_file : List (Option String × List NItem)
  total : Nat
  count_error : Nat
  count_warning : Nat
  count_info : Nat

/-- `normalize_semgrep_results` of `main.py`.  Python's stable `list.sort`
with a key function is embedded as `List.mergeSort` under the total preorder
`itemLe`; the `by_file` defaultdict built by appending each item under its own
`path` is, bucket for bucket, the filter of the sorted list by that path, with
keys in first-occurrence order. -/
def normalize_semgrep_results (data : SemgrepData) : NormOut :=
  let raw_results := data.results.getD []
  let normalized := (raw_results.map toNItem).mergeSort itemLe
  { results := normalized
    by_file := (firstKeys (normalized.map (fun n => n.path))).map
      (fun k => (k, normalized.filter (fun n => n.path == k)))
    total := normalized.length
    count_error := normalized.countP (fun n => n.severity == "ERROR")
    count_warning := normalized.countP (fun n => n.severity == "WARNING")
    count_info := normalized.countP (fun n => n.severity == "INFO") }

/-- Claim C6: the normalized finding list is sorted by the three-part key
(severity rank with ERROR < WARNING < INFO < anything else, then path with
absent read as `""`, then start line with absent read as `0`); consequently
severity ranks are monotone along the list, so all ERRORs precede all
WARNINGs, which precede all INFOs.  The sorted list is a permutation of the
normalized input records. -/
theorem normalized_results_sorted (data : SemgrepData) :
    (normalize_semgrep_results data).results.Pairwise
      (fun a b => itemLe a b = true) ∧
    (normalize_semgrep_results data).results.Pairwise
      (fun a b => severityRank a.severity ≤ severityRank b.severity) ∧
    (normalize_semgrep_results data).results.Perm
      ((data.results.getD []).map toNItem) := by
  have hsorted := List.sorted_mergeSort itemLe_trans itemLe_total
    ((data.results.getD []).map toNItem)
  refine ⟨hsorted, hsorted.imp ?_, ?_⟩
  · exact fun h => itemLe_rank_le _ _ h
  · exact List.mergeSort_perm _ itemLe

theorem mem_foldl_dictInsertKey {α : Type} [DecidableEq α] :
    ∀ (l : List α) (acc : List α) (a : α),
      a ∈ l.foldl dictInsertKey acc ↔ a ∈ acc ∨ a ∈ l
  | [], acc, a => by simp
  | x :: l, acc, a => by
    rw [List.foldl_cons, mem_foldl_dictInsertKey l (dictInsertKey acc x) a]
    unfold dictInsertKey
    split_ifs with hx
    · constructor
      · rintro (h | h)
        · exact Or.inl h
        · exact Or.inr (List.mem_cons_of_mem _ h)
      · rintro (h | h)
        · exact Or.inl h
        · rcases List.mem_cons.mp h with rfl | h
          · exact Or.inl hx
          · exact Or.inr h
    · simp only [List.mem_append, List.mem_singleton, List.mem_cons]
      tauto

theorem nodup_foldl_dictInsertKey {α : Type} [DecidableEq α] :
    ∀ (l : List α) (acc : List α), acc.Nodup → (l.foldl dictInsertKey acc).Nodup
  | [], acc, h => h
  | x :: l, acc, h => by
    rw [List.foldl_cons]
    refine nodup_foldl_dictInsertKey l _ ?_
    unfold dictInsertKey
    split_ifs with hx
    · exact h
    · exact List.nodup_append.mpr ⟨h, List.nodup_singleton x,
        fun a ha hax => hx ((List.mem_singleton.mp hax) ▸ ha)⟩

theorem mem_firstKeys {α : Type} [DecidableEq α] (l : List α) (a : α) :
    a ∈ firstKeys l ↔ a ∈ l := by
  rw [firstKeys, mem_foldl_dictInsertKey]
  simp

theorem nodup_firstKeys {α : Type} [DecidableEq α] (l : List α) :
    (firstKeys l).Nodup :=
  nodup_foldl_dictInsertKey l [] List.nodup_nil

/-- Partition counting: when the keys list is duplicate-free and covers the
key of every element, the bucket sizes sum to the length of the list. -/
theorem sum_filter_lengths {α κ : Type} [BEq κ] [LawfulBEq κ] (key : α → κ) :
    ∀ (ks : List κ) (l : List α), ks.Nodup → (∀ a ∈ l, key a ∈ ks) →
      (ks.map (fun k => (l.filter (fun a => key a == k)).length)).sum = l.length
  | [], l, _, hcov => by
    have : l = [] := List.eq_nil_iff_forall_not_mem.mpr
      (fun a ha => by simpa using hcov a ha)
    simp [this]
  | k :: ks, l, hnd, hcov => by
    have hk : k ∉ ks := (List.nodup_cons.mp hnd).1
    have hnd' : ks.Nodup := (List.nodup_cons.mp hnd).2
    have hsplit : l.length = (l.filter (fun a => key a == k)).length +
        (l.filter (fun a => !(key a == k))).length :=
      List.length_eq_length_filter_add (fun a => key a == k)
    have hrest : ∀ k' ∈ ks,
        l.filter (fun a => key a == k') =
          (l.filter (fun a => !(key a == k))).filter (fun a => key a == k') := by
      intro k' hk'
      rw [List.filter_filter]
      refine (List.filter_congr ?_).symm
      intro a _
      by_cases h : key a = k'
      · have hkk : k' ≠ k := fun he => hk (he ▸ hk')
        simp [h, hkk]
      · simp [h]
    have hcov' : ∀ a ∈ l.filter (fun a => !(key a == k)), key a ∈ ks := by
      intro a ha
      rcases List.mem_filter.mp ha with ⟨hal, hne⟩
      rcases List.mem_cons.mp (hcov a hal) with h | h
      · exfalso; simp [h] at hne
      · exact h
    have ih := sum_filter_lengths key ks (l.filter (fun a => !(key a == k)))
      hnd' hcov'
    have hmap : ks.map (fun k' => (l.filter (fun a => key a == k')).length) =
        ks.map (fun k' => ((l.filter (fun a => !(key a == k))).filter
          (fun a => key a == k')).length) :=
      List.map_congr_left (fun k' hk' => by rw [hrest k' hk'])
    rw [List.map_cons, List.sum_cons, hmap, ih]
    omega

/-- Claim C10: the `by_file` grouping partitions the sorted results — its keys
are duplicate-free, every normalized finding lies in exactly the bucket keyed
by its own path, each bucket is a sublist of the sorted results (the global
sort order is retained), and the bucket sizes sum to the reported `total`,
which is the number of input records. -/
theorem by_file_partitions_results (data : SemgrepData) :
    (∀ kb ∈ (normalize_semgrep_results data).by_file,
      kb.2 = (normalize_semgrep_results data).results.filter
        (fun n => n.path == kb.1)) ∧
    ((normalize_semgrep_results data).by_file.map Prod.fst).Nodup ∧
    (∀ n ∈ (normalize_semgrep_results data).results,
      ∃ kb ∈ (normalize_semgrep_results data).by_file, kb.1 = n.path) ∧
    (∀ kb ∈ (normalize_semgrep_results data).by_file, ∀ n : NItem,
      n ∈ kb.2 ↔ n ∈ (normalize_semgrep_results data).results ∧ n.path = kb.1) ∧
    (∀ kb ∈ (normalize_semgrep_results data).by_file,
      kb.2.Sublist (normalize_semgrep_results data).results) ∧
    ((normalize_semgrep_results data).by_file.map (fun kb => kb.2.length)).sum =
      (normalize_semgrep_results data).total ∧
    (normalize_semgrep_results data).total = (data.results.getD []).length := by
  set nl := ((data.results.getD []).map toNItem).mergeSort itemLe with hnl
  have hres : (normalize_semgrep_results data).results = nl := rfl
  have hbf : (normalize_semgrep_results data).by_file =
      (firstKeys (nl.map (fun n => n.path))).map
        (fun k => (k, nl.filter (fun n => n.path == k))) := rfl
  have htot : (normalize_semgrep_results data).total = nl.length := rfl
  have hbucket : ∀ kb ∈ (normalize_semgrep_results data).by_file,
      kb.2 = nl.filter (fun n => n.path == kb.1) := by
    intro kb hkb
    rw [hbf] at hkb
    rcases List.mem_map.mp hkb with ⟨k, _, rfl⟩
    rfl
  refine ⟨fun kb hkb => (hbucket kb hkb).trans (by rw [hres]), ?_, ?_, ?_, ?_, ?_, ?_⟩
  · rw [hbf, List.map_map]
    have : (Prod.fst ∘ fun k => (k, nl.filter (fun n => n.path == k))) = id := rfl
    rw [this, List.map_id]
    exact nodup_firstKeys _
  · intro n hn
    rw [hres] at hn
    refine ⟨(n.path, nl.filter (fun m => m.path == n.path)), ?_, rfl⟩
    rw [hbf]
    exact List.mem_map.mpr ⟨n.path,
      (mem_firstKeys _ _).mpr (List.mem_map.mpr ⟨n, hn, rfl⟩), rfl⟩
  · intro kb hkb n
    rw [hbucket kb hkb, hres, List.mem_filter]
    simp [beq_iff_eq]
  · intro kb hkb
    rw [hbucket kb hkb, hres]
    exact List.filter_sublist nl
  · rw [hbf, htot, List.map_map]
    have : ((fun kb : Option String × List NItem => kb.2.length) ∘
        fun k => (k, nl.filter (fun n => n.path == k))) =
        fun k => (nl.filter (fun n => n.path == k)).length := rfl
    rw [this]
    exact sum_filter_lengths (fun n : NItem => n.path) _ nl
      (nodup_firstKeys _)
      (fun a ha => (mem_firstKeys _ _).mpr (List.mem_map.mpr ⟨a, ha, rfl⟩))
  · rw [htot, hnl]
    rw [(List.mergeSort_perm ((data.results.getD []).map toNItem) itemLe).length_eq]
    simp

/-! ### Scan Store (`MonitoringDatabase`)

The sqlite database of `init_database` is embedded as the pair of its two
tables.  `save_scan_result` runs inside one `with sqlite3.connect(...)`
block: the `INSERT INTO scan_results` hits the `scan_id TEXT PRIMARY KEY`
constraint first, so on a duplicate `scan_id` the transaction raises
`sqlite3.IntegrityError` before any finding row is inserted and the context
manager rolls everything back — the embedding returns the error and no new
state. -/

/-- One row of the `findings` table (the surrogate `id` column carries no
information beyond row identity and is left implicit in the row order). -/
structure FindingRow where
  scan_id : String
  rule_id : String
  severity : String
  category : String
  file_path : String
  line_number : Int
  message : String
deriving DecidableEq

/-- The two tables created by `MonitoringDatabase.init_database`. -/
structure DB where
  scan_results : List ScanResult
  findings : List FindingRow
deriving DecidableEq

/-- `sqlite3.IntegrityError` raised by the `scan_id TEXT PRIMARY KEY`
constraint — the DuplicateScanError of the spec. -/
inductive DBError where
  | duplicateScan
deriving DecidableEq

/-- `MonitoringDatabase.save_scan_result`: inserts the summary row, then one
row per finding, and commits; a `scan_id` collision aborts the transaction
with no change to the store. -/
def save_scan_result (db : DB) (result : ScanResult) (fs : List FindingDetail) :
    Except DBError DB :=
  if db.scan_results.any (fun s => s.scan_id == result.scan_id) then
    .error .duplicateScan
  else
    .ok { scan_results := db.scan_results ++ [result]
          findings := db.findings ++ fs.map (fun f =>
            { scan_id := result.scan_id
              rule_id := f.rule_id
              severity := f.severity
              category := f.category
              file_path := f.file_path
              line_number := f.line_number
              message := f.message }) }

/-- Claim C7: inserting a scan whose `scan_id` is already present fails with
the duplicate-scan error, and the store is left exactly as it was — the
operation returns no new state, so the previously stored summary, its
findings, and the absence of the new findings are all immediate. -/
theorem duplicate_insert_rejected (db : DB) (result : ScanResult)
    (fs : List FindingDetail)
    (h : ∃ s ∈ db.scan_results, s.scan_id = result.scan_id) :
    save_scan_result db result fs = .error .duplicateScan ∧
    ∀ db' : DB, save_scan_result db result fs ≠ .ok db' := by
  have hany : db.scan_results.any (fun s => s.scan_id == result.scan_id) = true := by
    rcases h with ⟨s, hs, he⟩
    exact List.any_eq_true.mpr ⟨s, hs, beq_iff_eq.mpr he⟩
  refine ⟨?_, ?_⟩
  · simp [save_scan_result, hany]
  · intro db' hok
    rw [save_scan_result, if_pos hany] at hok
    exact Except.noConfusion hok

/-- Witness for C7: a store holding scan `"s1"` rejects a second insert of
`"s1"`. -/
theorem duplicate_insert_rejected_witness :
    save_scan_result
        { scan_results := [⟨"s1", "r", "c", "t", 0, 0, 0, 0, 0, 0⟩], findings := [] }
        ⟨"s1", "r2", "c2", "t2", 0, 0, 0, 0, 0, 0⟩ [] =
      .error .duplicateScan :=
  (duplicate_insert_rejected
    { scan_results := [⟨"s1", "r", "c", "t", 0, 0, 0, 0, 0, 0⟩], findings := [] }
    ⟨"s1", "r2", "c2", "t2", 0, 0, 0, 0, 0, 0⟩ []
    ⟨⟨"s1", "r", "c", "t", 0, 0, 0, 0, 0, 0⟩, List.mem_singleton.mpr rfl, rfl⟩).1

/-! ### Store queries (`get_repository_stats`, `get_trend_data`)

The SQL join `findings JOIN scan_results ON f.scan_id = s.scan_id WHERE
s.repository = ?` is embedded as one output row per matching pair.  The
`GROUP BY f.rule_id ... ORDER BY cnt DESC LIMIT 5` of the top-issues query
fixes the counts and the descending order, but sqlite leaves the relative
order of rows with equal `cnt` unspecified; the declarative contract is
therefore a predicate over admissible outputs (`topIssuesResult`). -/

/-- The join of the two tables restricted to one repository (one row per
matching summary row, i.e. genuine SQL join multiplicity). -/
def joinedFindings (db : DB) (repo : String) : List FindingRow :=
  db.findings.flatMap (fun f =>
    (db.scan_results.filter
      (fun s => s.scan_id == f.scan_id && s.repository == repo)).map (fun _ => f))

/-- `COUNT(*)` of the joined rows carrying one rule id. -/
def ruleCount (db : DB) (repo rule : String) : Nat :=
  (joinedFindings db repo).countP (fun f => f.rule_id == rule)

/-- The distinct rule ids of the joined rows (the `GROUP BY f.rule_id`
groups, in an arbitrary but fixed enumeration). -/
def ruleKeys (db : DB) (repo : String) : List String :=
  ((joinedFindings db repo).map (fun f => f.rule_id)).dedup

/-- The `(rule_id, cnt)` group rows of the top-issues query, before `ORDER
BY`/`LIMIT`. -/
def groupCounts (db : DB) (repo : String) : List (String × Nat) :=
  (ruleKeys db repo).map (fun k => (k, ruleCount db repo k))

/-- Declarative semantics of `... GROUP BY f.rule_id ORDER BY cnt DESC
LIMIT 5`: `out` is the 5-prefix of some arrangement of the group rows that is
sorted by count descending (ties in any order — sqlite does not specify
them). -/
def topIssuesResult (db : DB) (repo : String) (out : List (String × Nat)) : Prop :=
  ∃ l : List (String × Nat), (groupCounts db repo).Perm l ∧
    l.Pairwise (fun a b => b.2 ≤ a.2) ∧ out = l.take 5

/-- A store with one scan of repository `"r"` holding one `"a"` finding and
one `"b"` finding — a tie on the counts. -/
def tieStore : DB :=
  { scan_results := [⟨"s1", "r", "c", "t", 2, 2, 0, 0, 0, 0⟩]
    findings := [⟨"s1", "a", "ERROR", "cat", "f", 1, "m"⟩,
                 ⟨"s1", "b", "ERROR", "cat", "f", 2, "m"⟩] }

/-- Claim C8, counterexample: with rules `"a"` and `"b"` tied at one finding
each, the output `[("b", 1), ("a", 1)]` is an admissible result of the
top-issues query (`ORDER BY cnt DESC LIMIT 5` says nothing about ties), yet
it is not ordered by rule id ascending within the tie — the query has no
tie-break clause. -/
theorem top_issues_tie_not_ascending :
    topIssuesResult tieStore "r" [("b", 1), ("a", 1)] ∧
    ¬ ([(("b" : String), (1 : Nat)), ("a", 1)].Pairwise
        (fun a b => b.2 < a.2 ∨ (a.2 = b.2 ∧ strLt a.1 b.1 = true))) := by
  constructor
  · refine ⟨[("b", 1), ("a", 1)], ?_, by decide, rfl⟩
    have hg : groupCounts tieStore "r" = [("a", 1), ("b", 1)] := by decide
    rw [hg]
    exact List.Perm.swap ("b", 1) ("a", 1) []
  · decide

/-- Claim C8 (amended): every admissible top-issues output has at most 5
entries, is ordered by count descending, and each entry pairs a rule id of
the repository's stored findings with its exact total count; the relative
order of entries with equal counts is not specified. -/
theorem top_issues_bounded_sorted_counts (db : DB) (repo : String)
    (out : List (String × Nat)) (h : topIssuesResult db repo out) :
    out.length ≤ 5 ∧
    out.Pairwise (fun a b => b.2 ≤ a.2) ∧
    ∀ p ∈ out, p.1 ∈ ruleKeys db repo ∧ p.2 = ruleCount db repo p.1 := by
  obtain ⟨l, hperm, hsort, rfl⟩ := h
  refine ⟨List.length_take_le 5 l, hsort.sublist (List.take_sublist 5 l), ?_⟩
  intro p hp
  have hpl : p ∈ l := List.mem_of_mem_take hp
  have hpg : p ∈ groupCounts db repo := hperm.mem_iff.mpr hpl
  rcases List.mem_map.mp hpg with ⟨k, hk, rfl⟩
  exact ⟨hk, rfl⟩

/-- Witness for the amended C8 on `tieStore` with the canonical
arrangement. -/
theorem top_issues_bounded_sorted_counts_witness :
    ([(("a" : String), (1 : Nat)), ("b", 1)].length ≤ 5 ∧
     [(("a" : String), (1 : Nat)), ("b", 1)].Pairwise (fun a b => b.2 ≤ a.2) ∧
     ∀ p ∈ [(("a" : String), (1 : Nat)), ("b", 1)],
       p.1 ∈ ruleKeys tieStore "r" ∧ p.2 = ruleCount tieStore "r" p.1) := by
  have hg : groupCounts tieStore "r" = [("a", 1), ("b", 1)] := by decide
  exact top_issues_bounded_sorted_counts tieStore "r" [("a", 1), ("b", 1)]
    ⟨[("a", 1), ("b", 1)], by rw [hg], by decide, rfl⟩

/-- The `last_scan` dict of `get_repository_stats`:
`{timestamp, findings, duration}`. -/
structure LastScanInfo where
  timestamp : String
  findings : Nat
  duration : Rat
deriving DecidableEq

/-- `SELECT ... WHERE repository = ?` over `scan_results`. -/
def repoScans (db : DB) (repo : String) : List ScanResult :=
  db.scan_results.filter (fun s => s.repository == repo)

/-- One entry of the severity-distribution dict: `COUNT(*)` of joined rows
with the given severity.  (`dict(...).get(sev, 0)` of the `GROUP BY
f.severity` rows equals this count for every severity string.) -/
def sevCount (db : DB) (repo sev : String) : Nat :=
  (joinedFindings db repo).countP (fun f => f.severity == sev)

/-- Combining step for `ORDER BY timestamp DESC LIMIT 1`: keep the row with
the later timestamp (among equal timestamps sqlite's choice is unspecified;
the fold keeps the earlier row, one admissible choice — only presence or
absence of a row is relied on below). -/
def laterScan (acc : Option ScanResult) (s : ScanResult) : Option ScanResult :=
  match acc with
  | none => some s
  | some t => if strLt t.timestamp s.timestamp then some s else some t

/-- The row returned by `ORDER BY timestamp DESC LIMIT 1`, or `none` when the
repository has no scans. -/
def lastScan (db : DB) (repo : String) : Option ScanResult :=
  (repoScans db repo).foldl laterScan none

/-- The dict returned by `MonitoringDatabase.get_repository_stats`. -/
structure RepoStats where
  repository : String
  total_scans : Nat
  severity_distribution : String → Nat
  top_issues : List (String × Nat)
  last_scan : Option LastScanInfo

/-- Descending comparison on the `cnt` column of the group rows. -/
def cntGe (a b : String × Nat) : Bool := decide (b.2 ≤ a.2)

theorem cntGe_trans (a b c : String × Nat) (hab : cntGe a b = true)
    (hbc : cntGe b c = true) : cntGe a c = true := by
  simp only [cntGe, decide_eq_true_iff] at hab hbc ⊢
  omega

theorem cntGe_total (a b : String × Nat) : (cntGe a b || cntGe b a) = true := by
  simp only [cntGe, Bool.or_eq_true, decide_eq_true_iff]
  omega

/-- `MonitoringDatabase.get_repository_stats`.  `top_issues` is one
admissible arrangement of the group rows (a stable descending sort); see
`topIssuesResult`. -/
def get_repository_stats (db : DB) (repo : String) : RepoStats :=
  { repository := repo
    total_scans := (repoScans db repo).length
    severity_distribution := fun sev => sevCount db repo sev
    top_issues := ((groupCounts db repo).mergeSort cntGe).take 5
    last_scan := (lastScan db repo).map (fun s =>
      { timestamp := s.timestamp, findings := s.total_findings,
        duration := s.scan_duration }) }

/-- The `top_issues` field of the stats is itself an admissible output of the
declarative top-issues contract. -/
theorem stats_top_issues_admissible (db : DB) (repo : String) :
    topIssuesResult db repo (get_repository_stats db repo).top_issues := by
  refine ⟨(groupCounts db repo).mergeSort cntGe,
    (List.mergeSort_perm _ _).symm, ?_, rfl⟩
  have h := List.sorted_mergeSort cntGe_trans cntGe_total (groupCounts db repo)
  exact h.imp (fun hab => by simpa [cntGe] using hab)

/-- One calendar-date bucket of `get_trend_data`. -/
structure TrendPoint where
  date : String
  errors : Nat
  warnings : Nat
  infos : Nat
deriving DecidableEq

/-- sqlite's `DATE(timestamp)` on the ISO-8601 strings the module stores:
the leading `YYYY-MM-DD` part. -/
def dateOf (ts : String) : String := ts.take 10

/-- `MonitoringDatabase.get_trend_data`.  The sqlite cutoff
`datetime('now', '-days days')` is clock-derived, so the embedding takes the
cutoff timestamp as an argument; rows with `timestamp >= cutoff` are grouped
by calendar date, summed, and ordered by date ascending. -/
def get_trend_data (db : DB) (repo : Option String) (cutoff : String) :
    List TrendPoint :=
  let scans := db.scan_results.filter (fun s =>
    strLe cutoff s.timestamp &&
      (match repo with | some r => s.repository == r | none => true))
  let dates := ((scans.map (fun s => dateOf s.timestamp)).dedup).mergeSort strLe
  dates.map (fun d =>
    { date := d
      errors := ((scans.filter (fun s => dateOf s.timestamp == d)).map
        (fun s => s.error_count)).sum
      warnings := ((scans.filter (fun s => dateOf s.timestamp == d)).map
        (fun s => s.warning_count)).sum
      infos := ((scans.filter (fun s => dateOf s.timestamp == d)).map
        (fun s => s.info_count)).sum })

/-- The dict returned by `MonitoringReport.generate_summary_report`. -/
structure SummaryReport where
  repository : String
  security_score : Int
  security_grade : String
  statistics : RepoStats
  trend : List TrendPoint

/-- `MonitoringReport.generate_summary_report`.  When `stats['last_scan']` is
present (a non-empty dict, hence truthy), a synthetic `ScanResult` is built
from the repository-wide severity distribution and scored; otherwise the
"no data" sentinel `score = 0`, `grade = 'N/A'` is returned. -/
def generate_summary_report (db : DB) (repo : String) (cutoff : String) :
    SummaryReport :=
  let stats := get_repository_stats db repo
  match stats.last_scan with
  | some last =>
      let last_scan_result : ScanResult :=
        { scan_id := ""
          repository := repo
          commit_sha := ""
          timestamp := last.timestamp
          total_findings := last.findings
          error_count := stats.severity_distribution "ERROR"
          warning_count := stats.severity_distribution "WARNING"
          info_count := stats.severity_distribution "INFO"
          scan_duration := last.duration
          rules_applied := 0 }
      { repository := repo
        security_score := calculate_score last_scan_result
        security_grade := get_grade (calculate_score last_scan_result)
        statistics := stats
        trend := get_trend_data db (some repo) cutoff }
  | none =>
      { repository := repo
        security_score := 0
        security_grade := "N/A"
        statistics := stats
        trend := get_trend_data db (some repo) cutoff }

theorem foldl_laterScan_isSome : ∀ (l : List ScanResult) (t : ScanResult),
    (l.foldl laterScan (some t)).isSome = true
  | [], _ => rfl
  | s :: l, t => by
    rw [List.foldl_cons]
    show (List.foldl laterScan
      (if strLt t.timestamp s.timestamp then some s else some t) l).isSome = true
    by_cases hc : strLt t.timestamp s.timestamp = true
    · rw [if_pos hc]
      exact foldl_laterScan_isSome l s
    · rw [if_neg hc]
      exact foldl_laterScan_isSome l t

/-- `ORDER BY timestamp DESC LIMIT 1` returns no row exactly when the
repository has no scans. -/
theorem lastScan_eq_none_iff (db : DB) (repo : String) :
    lastScan db repo = none ↔ repoScans db repo = [] := by
  unfold lastScan
  cases hrs : repoScans db repo with
  | nil => simp
  | cons a l =>
    simp only [List.foldl_cons]
    constructor
    · intro hn
      have hs := foldl_laterScan_isSome l a
      have : laterScan none a = some a := rfl
      rw [this] at hn
      rw [hn] at hs
      exact Bool.noConfusion hs
    · intro hc
      exact List.noConfusion hc

/-- The grade bands only ever produce the five letters, never the "no data"
sentinel. -/
theorem get_grade_ne_na (x : Int) : get_grade x ≠ "N/A" := by
  unfold get_grade
  split_ifs <;> decide

/-- Claim C9: the summary report carries `security_score = 0` together with
`security_grade = "N/A"` exactly when the repository has no recorded scans;
otherwise score and grade come from the Score Engine applied to the
repository-wide cumulative severity distribution (summed over all stored
scans via the findings join), not to the most recent scan's own counts. -/
theorem report_no_data_sentinel (db : DB) (repo cutoff : String) :
    (((generate_summary_report db repo cutoff).security_score = 0 ∧
      (generate_summary_report db repo cutoff).security_grade = "N/A") ↔
        repoScans db repo = []) ∧
    (repoScans db repo ≠ [] →
      (generate_summary_report db repo cutoff).security_score =
        calculate_score ⟨"", repo, "", "", 0, sevCount db repo "ERROR",
          sevCount db repo "WARNING", sevCount db repo "INFO", 0, 0⟩ ∧
      (generate_summary_report db repo cutoff).security_grade =
        get_grade ((generate_summary_report db repo cutoff).security_score)) := by
  cases h : lastScan db repo with
  | none =>
    have hrs : repoScans db repo = [] := (lastScan_eq_none_iff db repo).mp h
    have h2 : (get_repository_stats db repo).last_scan = none := by
      simp [get_repository_stats, h]
    simp only [generate_summary_report, h2]
    simp [hrs]
  | some s =>
    have hrs : repoScans db repo ≠ [] := by
      intro hc
      have hn : lastScan db repo = none := (lastScan_eq_none_iff db repo).mpr hc
      rw [h] at hn
      exact Option.noConfusion hn
    have h2 : (get_repository_stats db repo).last_scan =
        some { timestamp := s.timestamp, findings := s.total_findings,
               duration := s.scan_duration } := by
      simp [get_repository_stats, h]
    simp only [generate_summary_report, h2]
    refine ⟨⟨fun hng => absurd hng.2 (get_grade_ne_na _), fun hc => absurd hc hrs⟩, ?_⟩
    intro _
    constructor
    · simp [calculate_score, penaltyOf, get_repository_stats]
    · trivial

/-- Witness for C9 on the two-finding store: the report's score and grade for
repository `"r"` come from the cumulative severity counts. -/
theorem report_no_data_sentinel_witness :
    (generate_summary_report tieStore "r" "z").security_score =
      calculate_score ⟨"", "r", "", "", 0, sevCount tieStore "r" "ERROR",
        sevCount tieStore "r" "WARNING", sevCount tieStore "r" "INFO", 0, 0⟩ ∧
    (generate_summary_report tieStore "r" "z").security_grade =
      get_grade ((generate_summary_report tieStore "r" "z").security_score) :=
  (report_no_data_sentinel tieStore "r" "z").2 (by decide)
